import Mathlib

/-!
Shallow embedding of the portfolio metrics engine of `geinvzilla`
(`client/src/components/dashboard/user-management.tsx`, lines 1639-1999):
the rate normalizer `extractNumericRate`, the aggregator
`calculatePortfolioMetrics`, the coupon projector `calculateMonthlyCoupons`
and the scorer `calculateDiversificationScore`.

JavaScript numbers are modelled as `Rat` (exact arithmetic); JS `null`/
missing string fields as `Option String`; `Record<string, number>` objects
as insertion-ordered association lists `List (String × Rat)`.  `parseFloat`
and `parseInt` are modelled after their JS semantics, with `none` playing
the role of `NaN`; at the two call sites where the source lets a `NaN`
flow into arithmetic (`unitPrice`, `remPercentage`) the model uses `0`
instead (no claim depends on an unparseable numeric string there).
-/

/-! ### Character and string helpers (JS semantics, ASCII range) -/

/-- JS `\s` whitespace class, restricted to the ASCII characters that occur
in the data (space, tab, newline, carriage return, form feed, vertical tab). -/
def isWS (c : Char) : Bool :=
  c = ' ' || c = '\t' || c = '\n' || c = '\r' || c = '\x0b' || c = '\x0c'

/-- ASCII `toUpperCase` on one character. -/
def jsToUpper (c : Char) : Char :=
  if 'a' ≤ c ∧ c ≤ 'z' then Char.ofNat (c.toNat - 32) else c

/-- ASCII `toLowerCase` on one character. -/
def jsToLower (c : Char) : Char :=
  if 'A' ≤ c ∧ c ≤ 'Z' then Char.ofNat (c.toNat + 32) else c

/-- Does `s` start with `pre`? -/
def startsWithSub : List Char → List Char → Bool
  | _, [] => true
  | [], _ :: _ => false
  | c :: cs, d :: ds => c = d && startsWithSub cs ds

/-- JS `String.prototype.includes`: does `s` contain `sub` as a contiguous
substring? -/
def containsSub : List Char → List Char → Bool
  | [], sub => sub.isEmpty
  | c :: cs, sub => startsWithSub (c :: cs) sub || containsSub cs sub

/-- Digits of a decimal numeral to a natural number. -/
def digitsToNat (l : List Char) : Nat :=
  l.foldl (fun n c => n * 10 + (c.toNat - 48)) 0

/-- Value of an integer part and a fractional digit string,
`ip.fp` as an exact rational. -/
def decimalToRat (ip fp : List Char) : Rat :=
  (digitsToNat ip : Rat) + (digitsToNat fp : Rat) / ((10 : Rat) ^ fp.length)

/-- JS `trim()` (ASCII whitespace). -/
def trimWS (l : List Char) : List Char :=
  ((l.dropWhile isWS).reverse.dropWhile isWS).reverse

/-! ### `parseInt` / `parseFloat` (JS, base 10; `none` = `NaN`) -/

/-- Hexadecimal digit? (for `parseInt`'s automatic `0x` radix). -/
def isHexDigit (c : Char) : Bool :=
  c.isDigit || ('a' ≤ c ∧ c ≤ 'f') || ('A' ≤ c ∧ c ≤ 'F')

/-- Hexadecimal digits to a natural number. -/
def hexDigitsToNat (l : List Char) : Nat :=
  l.foldl (fun n c =>
    n * 16 + (if c.isDigit then c.toNat - 48
              else if 'a' ≤ c ∧ c ≤ 'f' then c.toNat - 87
              else c.toNat - 55)) 0

/-- JS `parseInt(s)` (radix unspecified): skip whitespace, optional sign,
automatic hexadecimal on a `0x`/`0X` prefix, otherwise leading decimal
digits; `none` models `NaN`. -/
def jsParseInt (l : List Char) : Option Int :=
  let l := l.dropWhile isWS
  let sign : Int := match l with
    | '-' :: _ => -1
    | _ => 1
  let l := match l with
    | '-' :: r => r
    | '+' :: r => r
    | _ => l
  match l with
  | '0' :: x :: r =>
    if x = 'x' ∨ x = 'X' then
      let ds := r.takeWhile isHexDigit
      if ds.isEmpty then none else some (sign * (hexDigitsToNat ds : Int))
    else
      some (sign * (digitsToNat (('0' :: x :: r).takeWhile Char.isDigit) : Int))
  | _ =>
    let ds := l.takeWhile Char.isDigit
    if ds.isEmpty then none else some (sign * (digitsToNat ds : Int))

/-- JS `parseFloat(s)`: skip whitespace, optional sign, decimal digits with
an optional fractional part and an optional exponent; `none` models `NaN`
(at least one digit is required in the integer or fractional part). -/
def jsParseFloat (l : List Char) : Option Rat :=
  let l := l.dropWhile isWS
  let sign : Rat := match l with
    | '-' :: _ => -1
    | _ => 1
  let l := match l with
    | '-' :: r => r
    | '+' :: r => r
    | _ => l
  let ip := l.takeWhile Char.isDigit
  let l1 := l.dropWhile Char.isDigit
  let fpAndRest : List Char × List Char := match l1 with
    | '.' :: r => (r.takeWhile Char.isDigit, r.dropWhile Char.isDigit)
    | _ => ([], l1)
  let fp := fpAndRest.1
  let l2 := fpAndRest.2
  if ip.isEmpty ∧ fp.isEmpty then none
  else
    let mant : Rat := decimalToRat ip fp
    let exp : Int := match l2 with
      | e :: r =>
        if e = 'e' ∨ e = 'E' then
          let esign : Int := match r with
            | '-' :: _ => -1
            | _ => 1
          let r := match r with
            | '-' :: r2 => r2
            | '+' :: r2 => r2
            | _ => r
          let eds := r.takeWhile Char.isDigit
          if eds.isEmpty then 0 else esign * (digitsToNat eds : Int)
        else 0
      | [] => 0
    some (sign * mant * (10 : Rat) ^ exp)

/-! ### Regex fragments used by `extractNumericRate`

The source applies three regexes to `cleanRate` (the rate text with every
character other than digits, `.`, `,`, `+`, `-`, `%` removed — in
particular `cleanRate` has no whitespace):
`/(\d+(?:[.,]\d+)?)\s*%/`, `/(\d+(?:[.,]\d+)?)/` and
`/\+\s*(\d+(?:[.,]\d+)?)/`, each with leftmost-match semantics. -/

/-- Characters kept by `rateString.replace(/[^\d.,+\-%]/g, "")`. -/
def isRateChar (c : Char) : Bool :=
  c.isDigit || c = '.' || c = ',' || c = '+' || c = '-' || c = '%'

/-- Match `\d+(?:[.,]\d+)?` at the head of `s` (greedy, as the regex: the
optional fractional group is taken whenever a separator is immediately
followed by a digit).  Returns the capture and the remaining input. -/
def numAt (s : List Char) : Option (List Char × List Char) :=
  let ip := s.takeWhile Char.isDigit
  if ip.isEmpty then none
  else
    let r1 := s.dropWhile Char.isDigit
    match r1 with
    | sep :: r2 =>
      if sep = '.' ∨ sep = ',' then
        let fp := r2.takeWhile Char.isDigit
        if fp.isEmpty then some (ip, r1)
        else some (ip ++ sep :: fp, r2.dropWhile Char.isDigit)
      else some (ip, r1)
    | [] => some (ip, [])

/-- Leftmost match of `/(\d+(?:[.,]\d+)?)\s*%/` on a whitespace-free
string: a number capture whose remainder starts with `%`.  (Backtracking
inside the number never helps: after the greedy digits the next pattern
character must be `%`, and shrinking the digit run only exposes a digit.) -/
def findPercentNum : List Char → Option (List Char)
  | [] => none
  | c :: cs =>
    match numAt (c :: cs) with
    | some (cap, rest) =>
      if startsWithSub rest ['%'] then some cap else findPercentNum cs
    | none => findPercentNum cs

/-- Leftmost match of `/(\d+(?:[.,]\d+)?)/`. -/
def findFirstNum : List Char → Option (List Char)
  | [] => none
  | c :: cs =>
    match numAt (c :: cs) with
    | some (cap, _) => some cap
    | none => findFirstNum cs

/-- Leftmost match of `/\+\s*(\d+(?:[.,]\d+)?)/` on a whitespace-free
string: a `+` immediately followed by a number. -/
def findPlusNum : List Char → Option (List Char)
  | [] => none
  | '+' :: cs =>
    match numAt cs with
    | some (cap, _) => some cap
    | none => findPlusNum cs
  | _ :: cs => findPlusNum cs

/-- `parseFloat(capture.replace(",", "."))` for a regex capture of shape
`\d+([.,]\d+)?`: the digits before the (single, optional) separator are
the integer part, those after it the fractional part. -/
def parseNumCapture (cap : List Char) : Rat :=
  let ip := cap.takeWhile Char.isDigit
  match cap.dropWhile Char.isDigit with
  | [] => (digitsToNat ip : Rat)
  | _ :: fp => decimalToRat ip fp

/-! ### The rate normalizer (`extractNumericRate`, lines 1771-1809) -/

/-- `extractNumericRate(rateString)`.  The argument is `Option String`
because the `rate` column is nullable; `if (!rateString) return 0` catches
both `null` and the empty string. -/
def extractNumericRate (rateString : Option String) : Rat :=
  match rateString with
  | none => 0
  | some s =>
    if s = "" then 0
    else
      let cleanRate := s.toList.filter isRateChar
      let upper := s.toList.map jsToUpper
      match findPercentNum cleanRate with
      | some cap => parseNumCapture cap
      | none =>
        match findFirstNum cleanRate, containsSub upper ['C', 'D', 'I'] with
        | some cap, true =>
          let rate := parseNumCapture cap
          if rate > 10 then rate / 10 else rate + 10
        | _, _ =>
          match containsSub upper ['I', 'P', 'C', 'A'], findPlusNum cleanRate with
          | true, some cap2 => parseNumCapture cap2 + 4
          | _, _ =>
            match findFirstNum cleanRate with
            | some cap => parseNumCapture cap
            | none => 0

/-! ### Data model

`Asset` mirrors the nullable text columns of the `assets` table that the
engine reads (`name`, `issuer`, `indexer` are non-nullable; `sector`,
`frequency`, `couponMonths`, `rate`, `unitPrice`, `remPercentage` are
nullable).  `SelectedAsset` is the holding shape `{asset, quantity, value}`. -/

structure Asset where
  name : String
  issuer : String
  sector : Option String
  indexer : String
  frequency : Option String
  couponMonths : Option String
  rate : Option String
  unitPrice : Option String
  remPercentage : Option String
deriving DecidableEq, Repr

structure SelectedAsset where
  asset : Asset
  quantity : Rat
  value : Rat
deriving DecidableEq, Repr

/-- One entry of `monthlyDetails[month].details`
(`{assetName, value, frequency}`; `frequency` is `string | null`). -/
structure CouponDetail where
  assetName : String
  value : Rat
  frequency : Option String
deriving DecidableEq, Repr

/-- One entry of the `monthlyDetails` array (`{total, details}`). -/
structure MonthlyCouponData where
  total : Rat
  details : List CouponDetail
deriving DecidableEq, Repr

/-- The pair of arrays built by `calculateMonthlyCoupons`
(`monthlyCoupons` and `monthlyDetails`, both of length 12). -/
structure CouponState where
  totals : List Rat
  details : List MonthlyCouponData
deriving DecidableEq, Repr

/-! ### Parsing `couponMonths` (lines 1837-1850) -/

/-- Separator class of the split regex `/[,\s]+/`. -/
def isSep (c : Char) : Bool := c = ',' || isWS c

/-- `couponMonths.replace(/\sE\s/gi, ',')`: every (non-overlapping,
left-to-right) occurrence of whitespace-`E`-whitespace becomes one comma. -/
def replaceSpaceESpace : List Char → List Char
  | a :: b :: c :: rest =>
    if isWS a ∧ (b = 'E' ∨ b = 'e') ∧ isWS c then ',' :: replaceSpaceESpace rest
    else a :: replaceSpaceESpace (b :: c :: rest)
  | s => s

/-- JS `split(/[,\s]+/)`: a maximal run of separators is one boundary;
a leading (resp. trailing) run produces a leading (resp. trailing) empty
token.  `inRun` records whether the previous character was a separator,
`cur` holds the current token reversed. -/
def splitSepsF : Bool → List Char → List Char → List (List Char)
  | _, cur, [] => [cur.reverse]
  | inRun, cur, c :: cs =>
    if isSep c then
      if inRun then splitSepsF true cur cs
      else cur.reverse :: splitSepsF true [] cs
    else splitSepsF false (c :: cur) cs

def splitSeps (l : List Char) : List (List Char) := splitSepsF false [] l

/-- The month parser inlined at lines 1838-1850: the `'TODOS'` sentinel
(whole string compared after `toUpperCase()`) yields every month, any
other text is split, trimmed/filtered, parsed with `parseInt`, shifted to
0-based and filtered to `0 ≤ m < 12` (a `NaN`, modelled `none`, is
discarded by the same filter). -/
def parseCouponMonths (s : String) : List Int :=
  if s.toList.map jsToUpper = "TODOS".toList then
    [0, 1, 2, 3, 4, 5, 6, 7, 8, 9, 10, 11]
  else
    ((((splitSeps (replaceSpaceESpace s.toList)).filter
        (fun m => ¬ trimWS m = [])).map
        (fun m => (jsParseInt (trimWS m)).map (fun n => n - 1))).filterMap
        (fun o => match o with
          | some m => if 0 ≤ m ∧ m < 12 then some m else none
          | none => none))

/-! ### Annual coupon and frequency classification (lines 1852-1885) -/

/-- `asset.unitPrice ? parseFloat(asset.unitPrice.toString()) : 0`
(an unparseable price would be `NaN` in JS; modelled as 0). -/
def unitPriceOf (asset : Asset) : Rat :=
  match asset.unitPrice with
  | some s => if s = "" then 0 else (jsParseFloat s.toList).getD 0
  | none => 0

/-- The `switch (asset.indexer.toUpperCase())` computing `annualCoupon`. -/
def annualCouponOf (cdiRate : Rat) (asset : Asset) (quantity : Rat) : Rat :=
  let unitPrice := unitPriceOf asset
  let upper := String.mk (asset.indexer.toList.map jsToUpper)
  if upper = "IPCA" then
    extractNumericRate asset.rate / 100 * unitPrice * quantity
  else if upper = "PREFIXADO" then
    extractNumericRate asset.rate / 100 * unitPrice * quantity
  else if upper = "%CDI" then
    extractNumericRate asset.rate / 100 * (cdiRate / 100) * unitPrice * quantity
  else if upper = "CDI+" then
    (cdiRate / 100 + extractNumericRate asset.rate / 100) * unitPrice * quantity
  else
    extractNumericRate asset.rate / 100 * unitPrice * quantity

/-- `frequency.includes('mensal') || frequency.includes('monthly')` on the
lower-cased frequency text. -/
def isMonthlyF (fr : String) : Bool :=
  containsSub (fr.toList.map jsToLower) "mensal".toList ||
  containsSub (fr.toList.map jsToLower) "monthly".toList

def isQuarterlyF (fr : String) : Bool :=
  containsSub (fr.toList.map jsToLower) "trimestral".toList ||
  containsSub (fr.toList.map jsToLower) "quarterly".toList

def isSemiannualF (fr : String) : Bool :=
  containsSub (fr.toList.map jsToLower) "semestral".toList ||
  containsSub (fr.toList.map jsToLower) "semiannual".toList

def isAnnualF (fr : String) : Bool :=
  containsSub (fr.toList.map jsToLower) "anual".toList ||
  containsSub (fr.toList.map jsToLower) "annual".toList

/-! ### The projection state updates (lines 1887-1941) -/

/-- JS `x || 'N/A'` on a nullable string. -/
def jsStrOr (o : Option String) (d : String) : String :=
  match o with
  | some s => if s = "" then d else s
  | none => d

/-- One contribution: `monthlyCoupons[m] += v`, `monthlyDetails[m].total += v`,
`monthlyDetails[m].details.push(...)` (an out-of-range `List.set` is a no-op,
matching that the source only calls this at indices 0-11). -/
def addAt (m : Nat) (v : Rat) (nm : String) (freq : Option String)
    (st : CouponState) : CouponState :=
  { totals := st.totals.set m (st.totals.getD m 0 + v)
    details := st.details.set m
      (let d := st.details.getD m ⟨0, []⟩
       { total := d.total + v
         details := d.details ++ [⟨nm, v, freq⟩] }) }

/-- The `if (month >= 0 && month < 12)` guard of the quarterly /
semiannual / annual branches. -/
def addMonthChecked (nm : String) (freq : Option String) (v : Rat)
    (st : CouponState) (month : Int) : CouponState :=
  if 0 ≤ month ∧ month < 12 then addAt month.toNat v nm freq st else st

/-- The body of the `selectedAssets.forEach` of `calculateMonthlyCoupons`. -/
def processAsset (cdiRate : Rat) (st : CouponState) (sa : SelectedAsset) :
    CouponState :=
  let asset := sa.asset
  match asset.couponMonths, asset.frequency with
  | some cm, some fr =>
    if cm = "" ∨ fr = "" then st
    else
      let couponMonths : List Int := parseCouponMonths cm
      let annualCoupon := annualCouponOf cdiRate asset sa.quantity
      if isMonthlyF fr then
        (List.range 12).foldl
          (fun s i => addAt i (annualCoupon / 12) asset.name
            (some (jsStrOr asset.frequency "N/A")) s) st
      else if isQuarterlyF fr then
        couponMonths.foldl
          (addMonthChecked asset.name asset.frequency (annualCoupon / 4)) st
      else if isSemiannualF fr then
        couponMonths.foldl
          (addMonthChecked asset.name asset.frequency (annualCoupon / 2)) st
      else if isAnnualF fr then
        couponMonths.foldl
          (addMonthChecked asset.name asset.frequency annualCoupon) st
      else st
  | _, _ => st

/-- Both arrays start as 12 zero entries. -/
def emptyCouponState : CouponState :=
  { totals := List.replicate 12 0
    details := List.replicate 12 ⟨0, []⟩ }

/-- `calculateMonthlyCoupons(selectedAssets, cdiRate)` (lines 1822-1946).
The `selectedAssets.length === 0` early return yields the same empty state
the fold starts from. -/
def calculateMonthlyCoupons (selectedAssets : List SelectedAsset)
    (cdiRate : Rat) : CouponState :=
  if selectedAssets.isEmpty then emptyCouponState
  else selectedAssets.foldl (processAsset cdiRate) emptyCouponState

/-- The totals/details consistency property of a projector state: both
arrays have 12 entries, each month's running total equals the
corresponding detail entry's `total`, and that `total` is the sum of the
recorded contribution values. -/
def couponInvariant (st : CouponState) : Prop :=
  st.totals.length = 12 ∧ st.details.length = 12 ∧
  ∀ i : Nat, i < 12 →
    st.totals.getD i 0 = (st.details.getD i ⟨0, []⟩).total ∧
    (st.details.getD i ⟨0, []⟩).total
      = ((st.details.getD i ⟨0, []⟩).details.map CouponDetail.value).sum

/-! ### JS `Record<string, number>` as insertion-ordered association lists -/

/-- `m[k]` (`none` = `undefined`). -/
def recGet (m : List (String × Rat)) (k : String) : Option Rat :=
  match m with
  | [] => none
  | (k1, v1) :: rest => if k1 = k then some v1 else recGet rest k

/-- `m[k] = v`: update in place if the key exists, else append. -/
def recSet (m : List (String × Rat)) (k : String) (v : Rat) :
    List (String × Rat) :=
  match m with
  | [] => [(k, v)]
  | (k1, v1) :: rest =>
    if k1 = k then (k1, v) :: rest else (k1, v1) :: recSet rest k v

/-- JS truthiness of `m[k]` for a number-valued record
(`undefined` and `0` are falsy). -/
def recTruthy (m : List (String × Rat)) (k : String) : Bool :=
  match recGet m k with
  | some v => v ≠ 0
  | none => false

/-- `if (m[k]) { m[k] += w } else { m[k] = w }` — the accumulation step of
the concentration maps. -/
def recAdd (m : List (String × Rat)) (k : String) (w : Rat) :
    List (String × Rat) :=
  if recTruthy m k then recSet m k ((recGet m k).getD 0 + w) else recSet m k w

/-! ### The aggregator (`calculatePortfolioMetrics`, lines 1658-1769) -/

/-- One row of the `economicParams` table (`{name, value}`). -/
structure EconomicParam where
  name : String
  value : Rat
deriving DecidableEq, Repr

structure PortfolioMetrics where
  totalAssets : Nat
  totalValue : Rat
  weightedRate : Rat
  weightedRateByIndexer : List (String × Rat)
  concentrationByIssuer : List (String × Rat)
  concentrationBySector : List (String × Rat)
  concentrationByIndexer : List (String × Rat)
  monthlyCoupons : List Rat
  monthlyCouponDetails : List MonthlyCouponData
  totalCommission : Rat
deriving DecidableEq, Repr

/-- `selectedAssets.reduce((sum, sa) => sum + sa.value, 0)`. -/
def totalValueOf (selectedAssets : List SelectedAsset) : Rat :=
  selectedAssets.foldl (fun sum sa => sum + sa.value) 0

/-- `sa.asset.remPercentage` contribution:
`if (sa.asset.remPercentage) totalCommission += sa.value * (remPercent / 100)`
(an unparseable percentage would be `NaN` in JS; modelled as 0). -/
def commissionOf (sa : SelectedAsset) : Rat :=
  match sa.asset.remPercentage with
  | some s =>
    if s = "" then 0 else sa.value * ((jsParseFloat s.toList).getD 0 / 100)
  | none => 0

/-- The `forEach` accumulating `weightedRate` and `totalCommission`
(only run when `totalValue > 0`). -/
def weightedRateAndCommission (selectedAssets : List SelectedAsset)
    (totalValue : Rat) : Rat × Rat :=
  selectedAssets.foldl
    (fun acc sa =>
      (acc.1 + extractNumericRate sa.asset.rate * (sa.value / totalValue),
       acc.2 + commissionOf sa))
    (0, 0)

/-- The `forEach` building `weightedRateByIndexer` and `valueByIndexer`:
`if (!weightedRateByIndexer[indexer]) { weightedRateByIndexer[indexer] = 0;
valueByIndexer[indexer] = 0; }` then both `+=`. -/
def indexerAccum (selectedAssets : List SelectedAsset) :
    List (String × Rat) × List (String × Rat) :=
  selectedAssets.foldl
    (fun acc sa =>
      let indexer := sa.asset.indexer
      let rate := extractNumericRate sa.asset.rate
      let wri := acc.1
      let vbi := acc.2
      let wri := if ¬ recTruthy wri indexer then recSet wri indexer 0 else wri
      let vbi := if ¬ recTruthy acc.1 indexer then recSet vbi indexer 0 else vbi
      (recSet wri indexer ((recGet wri indexer).getD 0 + rate * sa.value),
       recSet vbi indexer ((recGet vbi indexer).getD 0 + sa.value)))
    ([], [])

/-- `Object.keys(weightedRateByIndexer).forEach(ix => { if (valueByIndexer[ix]
> 0) weightedRateByIndexer[ix] = weightedRateByIndexer[ix] / valueByIndexer[ix] })`. -/
def normalizeByIndexer (wri vbi : List (String × Rat)) : List (String × Rat) :=
  wri.map (fun p =>
    if (recGet vbi p.1).getD 0 > 0 then (p.1, p.2 / (recGet vbi p.1).getD 0)
    else p)

/-- `sa.asset.sector || "Não especificado"`. -/
def sectorKey (sa : SelectedAsset) : String :=
  jsStrOr sa.asset.sector "Não especificado"

/-- The `forEach` building the three concentration maps; `weight` is
`totalValue > 0 ? (sa.value / totalValue) * 100 : 0`. -/
def concentrationsOf (selectedAssets : List SelectedAsset) (totalValue : Rat) :
    List (String × Rat) × List (String × Rat) × List (String × Rat) :=
  selectedAssets.foldl
    (fun acc sa =>
      let weight := if totalValue > 0 then sa.value / totalValue * 100 else 0
      (recAdd acc.1 sa.asset.issuer weight,
       recAdd acc.2.1 (sectorKey sa) weight,
       recAdd acc.2.2 sa.asset.indexer weight))
    ([], [], [])

/-- `economicParams?.find(p => p.name === 'CDI')?.value || 14.65` (a stored
CDI value of `0` is falsy and also falls back to the default). -/
def cdiRateOf (economicParams : Option (List EconomicParam)) : Rat :=
  match economicParams with
  | some ps =>
    match ps.find? (fun p => p.name = "CDI") with
    | some p => if p.value = 0 then (1465 : Rat) / 100 else p.value
    | none => (1465 : Rat) / 100
  | none => (1465 : Rat) / 100

/-- `calculatePortfolioMetrics(selectedAssets, economicParams)`. -/
def calculatePortfolioMetrics (selectedAssets : List SelectedAsset)
    (economicParams : Option (List EconomicParam)) : PortfolioMetrics :=
  if selectedAssets.isEmpty then
    { totalAssets := 0
      totalValue := 0
      weightedRate := 0
      weightedRateByIndexer := []
      concentrationByIssuer := []
      concentrationBySector := []
      concentrationByIndexer := []
      monthlyCoupons := List.replicate 12 0
      monthlyCouponDetails := List.replicate 12 ⟨0, []⟩
      totalCommission := 0 }
  else
    let totalValue := totalValueOf selectedAssets
    let wc :=
      if totalValue > 0 then weightedRateAndCommission selectedAssets totalValue
      else (0, 0)
    let wv := indexerAccum selectedAssets
    let wri := normalizeByIndexer wv.1 wv.2
    let conc := concentrationsOf selectedAssets totalValue
    let couponData :=
      calculateMonthlyCoupons selectedAssets (cdiRateOf economicParams)
    { totalAssets := selectedAssets.length
      totalValue := totalValue
      weightedRate := wc.1
      weightedRateByIndexer := wri
      concentrationByIssuer := conc.1
      concentrationBySector := conc.2.1
      concentrationByIndexer := conc.2.2
      monthlyCoupons := couponData.totals
      monthlyCouponDetails := couponData.details
      totalCommission := wc.2 }

/-! ### The diversification scorer (lines 1961-1983) -/

/-- `Math.max(...values)`; `none` models the `-Infinity` of an empty
spread, under which both `> 20` and `> 40` are false. -/
def listMax : List Rat → Option Rat
  | [] => none
  | x :: xs => some (xs.foldl max x)

/-- `calculateDiversificationScore(metrics)`. -/
def calculateDiversificationScore (metrics : PortfolioMetrics) : Rat :=
  let issuerCount := metrics.concentrationByIssuer.length
  let sectorCount := metrics.concentrationBySector.length
  let indexerCount := metrics.concentrationByIndexer.length
  let maxIssuerConcentration := listMax (metrics.concentrationByIssuer.map Prod.snd)
  let maxSectorConcentration := listMax (metrics.concentrationBySector.map Prod.snd)
  let score : Rat := 100
  let score := if issuerCount < 5 then score - ((5 - issuerCount : Nat) : Rat) * 10 else score
  let score := if sectorCount < 3 then score - ((3 - sectorCount : Nat) : Rat) * 15 else score
  let score := if indexerCount < 2 then score - ((2 - indexerCount : Nat) : Rat) * 10 else score
  let score := match maxIssuerConcentration with
    | some m => if m > 20 then score - (m - 20) * 2 else score
    | none => score
  let score := match maxSectorConcentration with
    | some m => if m > 40 then score - (m - 40) * (3 / 2) else score
    | none => score
  max 0 (min 100 score)

/-! ## Theorems -/

/-! ### C1 — rate normalizer on `%`-bearing CDI texts -/

/-- **C1** (code bug): the explicit `<number>%` regex is checked first and
has no indexer-keyword guard, so for `"108% CDI"` the normalizer returns
`108` and for `"CDI + 1.25%"` it returns `1.25` — not the `10.8` and
`11.25` that both the spec and the code's own comment
(`108% CDI = 10.8%`) describe.  The CDI heuristic (`>10 ? n/10 : n+10`)
is reachable only when the text has no `%` sign, as the last two
conjuncts show. -/
theorem c1_percent_shadows_cdi_heuristic :
    extractNumericRate (some "108% CDI") = 108 ∧
    extractNumericRate (some "CDI + 1.25%") = 5 / 4 ∧
    extractNumericRate (some "108 CDI") = 54 / 5 ∧
    extractNumericRate (some "CDI + 1.25") = 45 / 4 := by
  refine ⟨by decide, ?_, ?_, ?_⟩ <;>
    simp +decide [extractNumericRate, findPercentNum, findFirstNum, findPlusNum,
      numAt, parseNumCapture, decimalToRat, digitsToNat, containsSub,
      startsWithSub, isRateChar, jsToUpper] <;>
    norm_num

/-! ### C4 — parsing of the `couponMonths` field -/

/-- **C4** (counterexample): the sentinel is the Portuguese `'TODOS'`, not
the literal string `"ALL"`: `"ALL"` falls into the split-and-parse branch,
where its single token parses to `NaN` and is discarded, so the parsed
month list is empty rather than all 12 months. -/
theorem c4_all_sentinel_counterexample :
    parseCouponMonths "ALL" = [] ∧
    ¬ parseCouponMonths "ALL" = [0, 1, 2, 3, 4, 5, 6, 7, 8, 9, 10, 11] := by
  constructor <;> decide

/-- **C4** (amended): a string whose `toUpperCase()` equals `'TODOS'`
expands to all 12 (0-based) months; every parsed month is in `0..11`
(out-of-range and unparseable tokens are discarded without error); and the
split accepts commas, whitespace and the standalone word `E`/`e`, parsing
1-based numbers to 0-based months. -/
theorem c4_payment_months_parsing :
    (∀ s : String, s.toList.map jsToUpper = "TODOS".toList →
      parseCouponMonths s = [0, 1, 2, 3, 4, 5, 6, 7, 8, 9, 10, 11]) ∧
    (∀ s : String, ∀ m ∈ parseCouponMonths s, 0 ≤ m ∧ m < 12) ∧
    parseCouponMonths "todos" = [0, 1, 2, 3, 4, 5, 6, 7, 8, 9, 10, 11] ∧
    parseCouponMonths "03 E 09" = [2, 8] ∧
    parseCouponMonths "03,09" = [2, 8] ∧
    parseCouponMonths "1 e 12" = [0, 11] ∧
    parseCouponMonths "13, XX, 5" = [4] := by
  refine ⟨?_, ?_, by decide, by decide, by decide, by decide, by decide⟩
  · intro s h
    rw [parseCouponMonths, if_pos h]
  · intro s m hm
    by_cases h : s.toList.map jsToUpper = "TODOS".toList
    · rw [parseCouponMonths, if_pos h] at hm
      have hall : ∀ x ∈ ([0, 1, 2, 3, 4, 5, 6, 7, 8, 9, 10, 11] : List Int),
          0 ≤ x ∧ x < 12 := by decide
      exact hall m hm
    · rw [parseCouponMonths, if_neg h] at hm
      obtain ⟨o, _, hmo⟩ := List.mem_filterMap.mp hm
      match o with
      | none => simp at hmo
      | some k =>
        have hmo2 : (if 0 ≤ k ∧ k < 12 then some k else none) = some m := hmo
        by_cases hk : 0 ≤ k ∧ k < 12
        · rw [if_pos hk] at hmo2
          cases hmo2
          exact hk
        · rw [if_neg hk] at hmo2
          simp at hmo2

/-- Witness for `c4_payment_months_parsing` at concrete inputs. -/
theorem c4_payment_months_parsing_witness :
    parseCouponMonths "Todos" = [0, 1, 2, 3, 4, 5, 6, 7, 8, 9, 10, 11] ∧
    (0 ≤ (2 : Int) ∧ (2 : Int) < 12) :=
  ⟨c4_payment_months_parsing.1 "Todos" (by decide),
   c4_payment_months_parsing.2.1 "03 E 09" 2 (by decide)⟩

/-! ### C7 — quarterly projection at the spec's test point -/

/-- **C7** (confirmed): the single holding with frequency `"quarterly"`,
payment months `{3, 9}` (1-based), rate `"8%"`, unit price `1000` and
quantity `1` projects `1000 * 0.08 / 4 = 20` into months 2 and 8
(0-based) and `0` everywhere else. -/
theorem c7_quarterly_respects_payment_months :
    (calculateMonthlyCoupons
      [⟨⟨"A7", "I", none, "PREFIXADO", some "quarterly", some "3,9", some "8%",
         some "1000", none⟩, 1, 1000⟩] (1465 / 100)).totals
      = [0, 0, 20, 0, 0, 0, 0, 0, 20, 0, 0, 0] := by
  simp +decide [calculateMonthlyCoupons, processAsset, emptyCouponState,
    parseCouponMonths, annualCouponOf, unitPriceOf, jsParseFloat,
    extractNumericRate, findPercentNum, findFirstNum, findPlusNum, numAt,
    parseNumCapture, decimalToRat, digitsToNat, containsSub, startsWithSub,
    isRateChar, jsToUpper, jsToLower, isMonthlyF, isQuarterlyF, isSemiannualF,
    isAnnualF, addMonthChecked, addAt, jsStrOr, replaceSpaceESpace, splitSeps,
    splitSepsF, trimWS, jsParseInt, isWS, isSep]
  norm_num

/-! ### C8 — empty input gives the canonical zero result -/

/-- **C8** (confirmed): `calculatePortfolioMetrics` on the empty holding
list returns the canonical zero result: count 0, total 0, weighted rate 0,
all four maps empty, the 12-element all-zero coupon array, twelve empty
detail entries, and commission 0 (no `NaN` can arise: every field is the
stated exact rational). -/
theorem c8_empty_input_zero_result :
    ∀ ep : Option (List EconomicParam),
      calculatePortfolioMetrics [] ep =
        { totalAssets := 0, totalValue := 0, weightedRate := 0,
          weightedRateByIndexer := [], concentrationByIssuer := [],
          concentrationBySector := [], concentrationByIndexer := [],
          monthlyCoupons := [0, 0, 0, 0, 0, 0, 0, 0, 0, 0, 0, 0],
          monthlyCouponDetails := List.replicate 12 ⟨0, []⟩,
          totalCommission := 0 } := by
  intro ep
  rfl

/-! ### C5 — metadata / failure policy of the coupon projector -/

/-- `listMax` is `List.max?`. -/
theorem listMax_eq_maxQ (l : List Rat) : listMax l = l.max? := by
  cases l <;> rfl

/-- A value produced by `listMax` is a member of the list. -/
theorem listMax_mem {l : List Rat} {m : Rat} (h : listMax l = some m) :
    m ∈ l := by
  rw [listMax_eq_maxQ] at h
  exact List.max?_mem (fun a b => max_choice a b) h

/-- Every element of a list is bounded by a left fold of `max`. -/
theorem foldl_max_bounds (xs : List Rat) :
    ∀ x : Rat, x ≤ xs.foldl max x ∧ ∀ v ∈ xs, v ≤ xs.foldl max x := by
  induction xs with
  | nil => intro x; simp
  | cons y ys ih =>
    intro x
    rw [List.foldl_cons]
    obtain ⟨h1, h2⟩ := ih (max x y)
    refine ⟨le_trans (le_max_left x y) h1, ?_⟩
    intro v hv
    rcases List.mem_cons.mp hv with rfl | hv
    · exact le_trans (le_max_right x v) h1
    · exact h2 v hv

/-- Every list element is at most the `listMax`. -/
theorem le_listMax {l : List Rat} {m : Rat} (h : listMax l = some m) :
    ∀ v ∈ l, v ≤ m := by
  match l with
  | [] => cases h
  | x :: xs =>
    rw [listMax] at h
    cases h
    intro v hv
    rcases List.mem_cons.mp hv with rfl | hv
    · exact (foldl_max_bounds xs v).1
    · exact (foldl_max_bounds xs x).2 v hv

/-- Pigeonhole bound: a list of rationals bounded by `m` sums to at most
`length * m`. -/
theorem sum_le_length_mul (l : List Rat) (m : Rat) (h : ∀ v ∈ l, v ≤ m) :
    l.sum ≤ (l.length : Rat) * m := by
  induction l with
  | nil => simp
  | cons x xs ih =>
    rw [List.sum_cons, List.length_cons]
    have hx := h x (List.mem_cons_self x xs)
    have hxs := ih (fun v hv => h v (List.mem_cons_of_mem x hv))
    push_cast
    nlinarith

/-- `getD` of the zero-filled array is `0` at every index. -/
theorem getD_replicate_zero (m : Nat) :
    (List.replicate 12 (0 : Rat)).getD m 0 = 0 := by
  rw [List.getD_eq_getElem?_getD, List.getElem?_replicate]
  split <;> rfl

/-- A zero-valued contribution leaves the all-zero totals array unchanged. -/
theorem addAt_zero_totals {st : CouponState}
    (h : st.totals = List.replicate 12 0) (m : Nat) (nm : String)
    (fr : Option String) :
    (addAt m 0 nm fr st).totals = List.replicate 12 0 := by
  simp only [addAt]
  rw [h, getD_replicate_zero, add_zero, List.set_replicate_self]

/-- The monthly loop with a zero coupon keeps the totals array all-zero. -/
theorem foldl_addAt_zero_totals (nm : String) (fr : Option String) :
    ∀ (ms : List Nat) (st : CouponState), st.totals = List.replicate 12 0 →
      ((ms.foldl (fun s i => addAt i 0 nm fr s) st).totals) =
        List.replicate 12 0 := by
  intro ms
  induction ms with
  | nil => intro st h; exact h
  | cons m rest ih =>
    intro st h
    rw [List.foldl_cons]
    exact ih _ (addAt_zero_totals h m nm fr)

/-- The listed-months loop with a zero coupon keeps the totals array
all-zero. -/
theorem foldl_addMonthChecked_zero_totals (nm : String) (fr : Option String) :
    ∀ (ms : List Int) (st : CouponState), st.totals = List.replicate 12 0 →
      ((ms.foldl (addMonthChecked nm fr 0) st).totals) =
        List.replicate 12 0 := by
  intro ms
  induction ms with
  | nil => intro st h; exact h
  | cons m rest ih =>
    intro st h
    rw [List.foldl_cons]
    apply ih
    rw [addMonthChecked]
    split
    · exact addAt_zero_totals h _ nm fr
    · exact h

/-- Without a unit price every indexer branch of the annual coupon is `0`. -/
theorem annualCouponOf_no_price (cdi : Rat) (asset : Asset) (q : Rat)
    (h : asset.unitPrice = none) : annualCouponOf cdi asset q = 0 := by
  rw [annualCouponOf, unitPriceOf, h]
  split_ifs <;> ring

/-- **C5** (counterexample): a holding with payment frequency and payment
months but *no* `unitPrice` is not skipped: the monthly branch still pushes
a (zero-valued) entry into every month's detail list, so it does contribute
to the details, contradicting the claim that such a holding contributes
nothing to totals *and details*. -/
theorem c5_no_unit_price_still_pushes_details :
    ((calculateMonthlyCoupons
      [⟨⟨"A5", "I", none, "PREFIXADO", some "mensal", some "TODOS", some "10%",
         none, none⟩, 1, 100⟩] (1465 / 100)).details.getD 0 ⟨0, []⟩).details
      = [⟨"A5", 0, some "mensal"⟩] := by
  simp +decide [calculateMonthlyCoupons, processAsset, emptyCouponState,
    parseCouponMonths, annualCouponOf, unitPriceOf, jsParseFloat,
    extractNumericRate, findPercentNum, findFirstNum, findPlusNum, numAt,
    parseNumCapture, decimalToRat, digitsToNat, containsSub, startsWithSub,
    isRateChar, jsToUpper, jsToLower, isMonthlyF, isQuarterlyF, isSemiannualF,
    isAnnualF, addMonthChecked, addAt, jsStrOr, List.range_succ]

/-- **C5** (amended): a holding lacking (or with empty) `couponMonths` or
`frequency` is skipped entirely — the projector state is unchanged; a
holding with both but *without* `unitPrice` contributes `0` to every
monthly total (though it still records zero-valued detail entries); the
computation is a total function, so it never aborts. -/
theorem c5_missing_metadata_policy :
    (∀ (cdi : Rat) (st : CouponState) (sa : SelectedAsset),
      (sa.asset.couponMonths = none ∨ sa.asset.couponMonths = some "" ∨
       sa.asset.frequency = none ∨ sa.asset.frequency = some "") →
      processAsset cdi st sa = st) ∧
    (∀ (cdi : Rat) (sa : SelectedAsset), sa.asset.unitPrice = none →
      (calculateMonthlyCoupons [sa] cdi).totals = List.replicate 12 0) := by
  constructor
  · intro cdi st sa h
    rcases hcm : sa.asset.couponMonths with _ | cm
    · simp [processAsset, hcm]
    rcases hfr : sa.asset.frequency with _ | fr
    · simp [processAsset, hcm, hfr]
    rcases h with h | h | h | h
    · rw [hcm] at h; cases h
    · rw [hcm] at h
      cases h
      simp [processAsset, hcm, hfr]
    · rw [hfr] at h; cases h
    · rw [hfr] at h
      cases h
      simp [processAsset, hcm, hfr]
  · intro cdi sa hup
    rw [calculateMonthlyCoupons]
    rw [if_neg (by simp), List.foldl_cons, List.foldl_nil]
    have hA : annualCouponOf cdi sa.asset sa.quantity = 0 :=
      annualCouponOf_no_price cdi sa.asset sa.quantity hup
    rcases hcm : sa.asset.couponMonths with _ | cm
    · simp [processAsset, hcm, emptyCouponState]
    rcases hfr : sa.asset.frequency with _ | fr
    · simp [processAsset, hcm, hfr, emptyCouponState]
    simp only [processAsset, hcm, hfr, hA, zero_div]
    by_cases hemp : cm = "" ∨ fr = ""
    · rw [if_pos hemp]; rfl
    rw [if_neg hemp]
    split_ifs
    · exact foldl_addAt_zero_totals _ _ _ _ rfl
    · exact foldl_addMonthChecked_zero_totals _ _ _ _ rfl
    · exact foldl_addMonthChecked_zero_totals _ _ _ _ rfl
    · exact foldl_addMonthChecked_zero_totals _ _ _ _ rfl
    · rfl

/-- Witness for `c5_missing_metadata_policy` at concrete inputs. -/
theorem c5_missing_metadata_policy_witness :
    processAsset (1465 / 100) emptyCouponState
      ⟨⟨"W", "I", none, "X", some "mensal", none, none, none, none⟩, 1, 10⟩ =
      emptyCouponState ∧
    (calculateMonthlyCoupons
      [⟨⟨"W2", "I", none, "PREFIXADO", some "mensal", some "TODOS",
         some "10%", none, none⟩, 1, 10⟩] (1465 / 100)).totals =
      List.replicate 12 0 :=
  ⟨c5_missing_metadata_policy.1 (1465 / 100) emptyCouponState
      ⟨⟨"W", "I", none, "X", some "mensal", none, none, none, none⟩, 1, 10⟩
      (Or.inl rfl),
   c5_missing_metadata_policy.2 (1465 / 100)
      ⟨⟨"W2", "I", none, "PREFIXADO", some "mensal", some "TODOS",
        some "10%", none, none⟩, 1, 10⟩ rfl⟩

/-! ### C2 — diversification score boundary -/

/-- A nonempty list has a `listMax`. -/
theorem listMax_isSome_of_ne_nil (l : List Rat) (h : ¬ l = []) :
    ∃ m, listMax l = some m := by
  cases l with
  | nil => exact absurd rfl h
  | cons x xs => exact ⟨xs.foldl max x, rfl⟩

/-- **C2** (counterexample): removing one issuer from the balanced
5-issuer portfolio does *not* leave a score of 90: with 4 issuer
concentrations summing to 100 the largest is 25, so the over-concentration
penalty `2 * (25 - 20) = 10` also applies and the score is 80. -/
theorem c2_remove_issuer_counterexample :
    calculateDiversificationScore
      { totalAssets := 5, totalValue := 100, weightedRate := 0,
        weightedRateByIndexer := [],
        concentrationByIssuer :=
          [("A", 20), ("B", 20), ("C", 20), ("D", 20), ("E", 20)],
        concentrationBySector := [("S1", 40), ("S2", 30), ("S3", 30)],
        concentrationByIndexer := [("X", 50), ("Y", 50)],
        monthlyCoupons := List.replicate 12 0,
        monthlyCouponDetails := List.replicate 12 ⟨0, []⟩,
        totalCommission := 0 } = 100 ∧
    calculateDiversificationScore
      { totalAssets := 4, totalValue := 100, weightedRate := 0,
        weightedRateByIndexer := [],
        concentrationByIssuer := [("A", 25), ("B", 25), ("C", 25), ("D", 25)],
        concentrationBySector := [("S1", 40), ("S2", 30), ("S3", 30)],
        concentrationByIndexer := [("X", 50), ("Y", 50)],
        monthlyCoupons := List.replicate 12 0,
        monthlyCouponDetails := List.replicate 12 ⟨0, []⟩,
        totalCommission := 0 } = 80 := by
  constructor
  · simp +decide [calculateDiversificationScore, listMax]
  · simp +decide [calculateDiversificationScore, listMax]
    norm_num

/-- **C2** (amended): (a) 5 issuers, 3 sectors, 2 indexers with largest
issuer concentration ≤ 20 and largest sector concentration ≤ 40 score
exactly 100; (b) with 4 issuer keys whose concentrations sum to 100 (and
sectors/indexers as before), the largest issuer concentration `mI` is
forced to be ≥ 25 > 20, so besides the count penalty of 10 the
over-concentration penalty applies: the score is
`max 0 (90 - (mI - 20) * 2) ≤ 80`, not 90; (c) the score is always
clamped to `[0, 100]`. -/
theorem c2_diversification_score_boundary :
    (∀ M : PortfolioMetrics,
      M.concentrationByIssuer.length = 5 →
      M.concentrationBySector.length = 3 →
      M.concentrationByIndexer.length = 2 →
      (∀ v ∈ M.concentrationByIssuer.map Prod.snd, v ≤ 20) →
      (∀ v ∈ M.concentrationBySector.map Prod.snd, v ≤ 40) →
      calculateDiversificationScore M = 100) ∧
    (∀ (M : PortfolioMetrics) (mI : Rat),
      M.concentrationByIssuer.length = 4 →
      M.concentrationBySector.length = 3 →
      M.concentrationByIndexer.length = 2 →
      (M.concentrationByIssuer.map Prod.snd).sum = 100 →
      listMax (M.concentrationByIssuer.map Prod.snd) = some mI →
      (∀ v ∈ M.concentrationBySector.map Prod.snd, v ≤ 40) →
      25 ≤ mI ∧
      calculateDiversificationScore M = max 0 (90 - (mI - 20) * 2) ∧
      calculateDiversificationScore M ≤ 80) ∧
    (∀ M : PortfolioMetrics,
      0 ≤ calculateDiversificationScore M ∧
      calculateDiversificationScore M ≤ 100) := by
  refine ⟨?_, ?_, ?_⟩
  · intro M h5 h3 h2 hIle hSle
    have hlenI : (M.concentrationByIssuer.map Prod.snd).length = 5 := by
      rw [List.length_map, h5]
    have hlenS : (M.concentrationBySector.map Prod.snd).length = 3 := by
      rw [List.length_map, h3]
    have hneI : ¬ (M.concentrationByIssuer.map Prod.snd) = [] := by
      intro he; rw [he] at hlenI; cases hlenI
    have hneS : ¬ (M.concentrationBySector.map Prod.snd) = [] := by
      intro he; rw [he] at hlenS; cases hlenS
    obtain ⟨mI, hmi⟩ := listMax_isSome_of_ne_nil _ hneI
    obtain ⟨mS, hms⟩ := listMax_isSome_of_ne_nil _ hneS
    have hI : ¬ (20 < mI) := not_lt.mpr (hIle mI (listMax_mem hmi))
    have hS : ¬ (40 < mS) := not_lt.mpr (hSle mS (listMax_mem hms))
    simp only [calculateDiversificationScore, h5, h3, h2, hmi, hms]
    norm_num [hI, hS]
  · intro M mI h4 h3 h2 hsum hmi hSle
    have hlenS : (M.concentrationBySector.map Prod.snd).length = 3 := by
      rw [List.length_map, h3]
    have hneS : ¬ (M.concentrationBySector.map Prod.snd) = [] := by
      intro he; rw [he] at hlenS; cases hlenS
    obtain ⟨mS, hms⟩ := listMax_isSome_of_ne_nil _ hneS
    have hS : ¬ (40 < mS) := not_lt.mpr (hSle mS (listMax_mem hms))
    have hlen : (M.concentrationByIssuer.map Prod.snd).length = 4 := by
      rw [List.length_map, h4]
    have h25 : 25 ≤ mI := by
      have hb := sum_le_length_mul (M.concentrationByIssuer.map Prod.snd) mI
        (le_listMax hmi)
      rw [hsum, hlen] at hb
      push_cast at hb
      linarith
    have h20 : (20 : Rat) < mI := by linarith
    have hval : calculateDiversificationScore M
        = max 0 (90 - (mI - 20) * 2) := by
      simp only [calculateDiversificationScore, h4, h3, h2, hmi, hms]
      norm_num [h20, hS]
      rw [min_eq_right (by linarith)]
    refine ⟨h25, hval, ?_⟩
    rw [hval]
    exact max_le (by norm_num) (by linarith)
  · intro M
    simp only [calculateDiversificationScore]
    exact ⟨le_max_left _ _, max_le (by norm_num) (min_le_left _ _)⟩

/-- Witness for `c2_diversification_score_boundary` at the concrete
balanced portfolios. -/
theorem c2_diversification_score_boundary_witness :
    calculateDiversificationScore
      { totalAssets := 5, totalValue := 100, weightedRate := 0,
        weightedRateByIndexer := [],
        concentrationByIssuer :=
          [("A", 20), ("B", 20), ("C", 20), ("D", 20), ("E", 20)],
        concentrationBySector := [("S1", 40), ("S2", 30), ("S3", 30)],
        concentrationByIndexer := [("X", 50), ("Y", 50)],
        monthlyCoupons := List.replicate 12 0,
        monthlyCouponDetails := List.replicate 12 ⟨0, []⟩,
        totalCommission := 0 } = 100 ∧
    (25 ≤ (25 : Rat) ∧
     calculateDiversificationScore
      { totalAssets := 4, totalValue := 100, weightedRate := 0,
        weightedRateByIndexer := [],
        concentrationByIssuer := [("A", 25), ("B", 25), ("C", 25), ("D", 25)],
        concentrationBySector := [("S1", 40), ("S2", 30), ("S3", 30)],
        concentrationByIndexer := [("X", 50), ("Y", 50)],
        monthlyCoupons := List.replicate 12 0,
        monthlyCouponDetails := List.replicate 12 ⟨0, []⟩,
        totalCommission := 0 } = max 0 (90 - ((25 : Rat) - 20) * 2) ∧
     calculateDiversificationScore
      { totalAssets := 4, totalValue := 100, weightedRate := 0,
        weightedRateByIndexer := [],
        concentrationByIssuer := [("A", 25), ("B", 25), ("C", 25), ("D", 25)],
        concentrationBySector := [("S1", 40), ("S2", 30), ("S3", 30)],
        concentrationByIndexer := [("X", 50), ("Y", 50)],
        monthlyCoupons := List.replicate 12 0,
        monthlyCouponDetails := List.replicate 12 ⟨0, []⟩,
        totalCommission := 0 } ≤ 80) :=
  ⟨c2_diversification_score_boundary.1 _ rfl rfl rfl (by decide) (by decide),
   c2_diversification_score_boundary.2.1 _ 25 rfl rfl rfl
      (by norm_num) (by decide) (by decide)⟩

/-! ### C3 — concentration maps sum to 100 -/

/-- The concentration accumulation step adds exactly its weight to a map's
value sum (the JS falsy test on a stored `0` assigns instead of adding,
which is numerically the same). -/
theorem recAdd_snd_sum (k : String) (w : Rat) :
    ∀ m : List (String × Rat),
      ((recAdd m k w).map Prod.snd).sum = (m.map Prod.snd).sum + w := by
  intro m
  induction m with
  | nil => simp [recAdd, recTruthy, recGet, recSet]
  | cons p rest ih =>
    obtain ⟨k1, v1⟩ := p
    by_cases hk : k1 = k
    · subst hk
      by_cases hv : v1 = 0 <;>
        simp [recAdd, recTruthy, recGet, recSet, hv] <;> ring
    · have hstep : recAdd ((k1, v1) :: rest) k w
          = (k1, v1) :: recAdd rest k w := by
        simp only [recAdd, recTruthy, recGet, recSet, if_neg hk]
        split_ifs <;> rfl
      rw [hstep]
      simp only [List.map_cons, List.sum_cons, ih]
      ring

/-- `reduce((sum, sa) => sum + sa.value, a)` is `a` plus the value sum. -/
theorem foldl_value_sum :
    ∀ (l : List SelectedAsset) (a : Rat),
      l.foldl (fun sum sa => sum + sa.value) a
        = a + (l.map SelectedAsset.value).sum := by
  intro l
  induction l with
  | nil => intro a; simp
  | cons sa rest ih =>
    intro a
    rw [List.foldl_cons, ih]
    simp [List.sum_cons]
    ring

theorem totalValueOf_eq_sum (l : List SelectedAsset) :
    totalValueOf l = (l.map SelectedAsset.value).sum := by
  rw [totalValueOf, foldl_value_sum]
  ring

/-- Each of the three concentration maps gains the full weight sum over
the concentration `forEach`. -/
theorem conc_fold_snd_sum (T : Rat) :
    ∀ (l : List SelectedAsset)
      (acc : List (String × Rat) × List (String × Rat) × List (String × Rat)),
      ((l.foldl (fun acc sa =>
          (recAdd acc.1 sa.asset.issuer (if T > 0 then sa.value / T * 100 else 0),
           recAdd acc.2.1 (sectorKey sa) (if T > 0 then sa.value / T * 100 else 0),
           recAdd acc.2.2 sa.asset.indexer
             (if T > 0 then sa.value / T * 100 else 0))) acc).1.map
          Prod.snd).sum
        = (acc.1.map Prod.snd).sum
          + (l.map (fun sa => if T > 0 then sa.value / T * 100 else 0)).sum ∧
      ((l.foldl (fun acc sa =>
          (recAdd acc.1 sa.asset.issuer (if T > 0 then sa.value / T * 100 else 0),
           recAdd acc.2.1 (sectorKey sa) (if T > 0 then sa.value / T * 100 else 0),
           recAdd acc.2.2 sa.asset.indexer
             (if T > 0 then sa.value / T * 100 else 0))) acc).2.1.map
          Prod.snd).sum
        = (acc.2.1.map Prod.snd).sum
          + (l.map (fun sa => if T > 0 then sa.value / T * 100 else 0)).sum ∧
      ((l.foldl (fun acc sa =>
          (recAdd acc.1 sa.asset.issuer (if T > 0 then sa.value / T * 100 else 0),
           recAdd acc.2.1 (sectorKey sa) (if T > 0 then sa.value / T * 100 else 0),
           recAdd acc.2.2 sa.asset.indexer
             (if T > 0 then sa.value / T * 100 else 0))) acc).2.2.map
          Prod.snd).sum
        = (acc.2.2.map Prod.snd).sum
          + (l.map (fun sa => if T > 0 then sa.value / T * 100 else 0)).sum := by
  intro l
  induction l with
  | nil => intro acc; simp
  | cons sa rest ih =>
    intro acc
    rw [List.foldl_cons]
    obtain ⟨h1, h2, h3⟩ := ih
      (recAdd acc.1 sa.asset.issuer (if T > 0 then sa.value / T * 100 else 0),
       recAdd acc.2.1 (sectorKey sa) (if T > 0 then sa.value / T * 100 else 0),
       recAdd acc.2.2 sa.asset.indexer (if T > 0 then sa.value / T * 100 else 0))
    refine ⟨?_, ?_, ?_⟩
    · rw [h1, recAdd_snd_sum]
      simp [List.sum_cons]
      ring
    · rw [h2, recAdd_snd_sum]
      simp [List.sum_cons]
      ring
    · rw [h3, recAdd_snd_sum]
      simp [List.sum_cons]
      ring

/-- The weight sum over a holding list is `(Σ value) / T * 100` when
`T > 0`. -/
theorem weight_map_sum (T : Rat) (hT : 0 < T) :
    ∀ l : List SelectedAsset,
      (l.map (fun sa => if T > 0 then sa.value / T * 100 else 0)).sum
        = (l.map SelectedAsset.value).sum / T * 100 := by
  intro l
  have hfun : (fun (sa : SelectedAsset) => if T > 0 then sa.value / T * 100 else 0)
      = (fun sa => sa.value / T * 100) := funext (fun sa => if_pos hT)
  rw [hfun]
  induction l with
  | nil => simp
  | cons sa rest ih =>
    simp only [List.map_cons, List.sum_cons, ih]
    ring

/-- **C3** (confirmed): under exact rational arithmetic, for any non-empty
holdings list with positive total value the values of each of the three
concentration maps sum to exactly 100; for the empty list each map is
empty with value sum 0. -/
theorem c3_concentration_sums :
    (∀ (sas : List SelectedAsset) (ep : Option (List EconomicParam)),
      ¬ sas = [] → 0 < totalValueOf sas →
      (((calculatePortfolioMetrics sas ep).concentrationByIssuer.map
          Prod.snd).sum = 100 ∧
       ((calculatePortfolioMetrics sas ep).concentrationBySector.map
          Prod.snd).sum = 100 ∧
       ((calculatePortfolioMetrics sas ep).concentrationByIndexer.map
          Prod.snd).sum = 100)) ∧
    (∀ ep : Option (List EconomicParam),
      (calculatePortfolioMetrics [] ep).concentrationByIssuer = [] ∧
      (calculatePortfolioMetrics [] ep).concentrationBySector = [] ∧
      (calculatePortfolioMetrics [] ep).concentrationByIndexer = [] ∧
      ((calculatePortfolioMetrics [] ep).concentrationByIssuer.map
          Prod.snd).sum = 0 ∧
      ((calculatePortfolioMetrics [] ep).concentrationBySector.map
          Prod.snd).sum = 0 ∧
      ((calculatePortfolioMetrics [] ep).concentrationByIndexer.map
          Prod.snd).sum = 0) := by
  constructor
  · intro sas ep hne htot
    have hemp : sas.isEmpty = false := by
      cases sas with
      | nil => exact absurd rfl hne
      | cons a l => rfl
    obtain ⟨h1, h2, h3⟩ := conc_fold_snd_sum (totalValueOf sas) sas ([], [], [])
    simp only [calculatePortfolioMetrics, hemp, Bool.false_eq_true, if_false,
      concentrationsOf]
    refine ⟨?_, ?_, ?_⟩
    · rw [h1, weight_map_sum _ htot, ← totalValueOf_eq_sum,
        div_self (ne_of_gt htot)]
      norm_num
    · rw [h2, weight_map_sum _ htot, ← totalValueOf_eq_sum,
        div_self (ne_of_gt htot)]
      norm_num
    · rw [h3, weight_map_sum _ htot, ← totalValueOf_eq_sum,
        div_self (ne_of_gt htot)]
      norm_num
  · intro ep
    exact ⟨rfl, rfl, rfl, rfl, rfl, rfl⟩

/-- Witness for `c3_concentration_sums` at a concrete two-holding list. -/
theorem c3_concentration_sums_witness :
    ¬ ([⟨⟨"Q1", "I3", some "Fin", "IPCA", none, none, some "IPCA + 6%", none,
          none⟩, 1, 40⟩,
        ⟨⟨"Q2", "I4", none, "CDI", none, none, some "CDI + 2", none, none⟩,
          1, 60⟩] : List SelectedAsset) = [] ∧
    0 < totalValueOf
        [⟨⟨"Q1", "I3", some "Fin", "IPCA", none, none, some "IPCA + 6%", none,
           none⟩, 1, 40⟩,
         ⟨⟨"Q2", "I4", none, "CDI", none, none, some "CDI + 2", none, none⟩,
           1, 60⟩] ∧
    (((calculatePortfolioMetrics
        [⟨⟨"Q1", "I3", some "Fin", "IPCA", none, none, some "IPCA + 6%", none,
           none⟩, 1, 40⟩,
         ⟨⟨"Q2", "I4", none, "CDI", none, none, some "CDI + 2", none, none⟩,
           1, 60⟩] none).concentrationByIssuer.map Prod.snd).sum = 100 ∧
     ((calculatePortfolioMetrics
        [⟨⟨"Q1", "I3", some "Fin", "IPCA", none, none, some "IPCA + 6%", none,
           none⟩, 1, 40⟩,
         ⟨⟨"Q2", "I4", none, "CDI", none, none, some "CDI + 2", none, none⟩,
           1, 60⟩] none).concentrationBySector.map Prod.snd).sum = 100 ∧
     ((calculatePortfolioMetrics
        [⟨⟨"Q1", "I3", some "Fin", "IPCA", none, none, some "IPCA + 6%", none,
           none⟩, 1, 40⟩,
         ⟨⟨"Q2", "I4", none, "CDI", none, none, some "CDI + 2", none, none⟩,
           1, 60⟩] none).concentrationByIndexer.map Prod.snd).sum = 100) :=
  ⟨by decide, by norm_num [totalValueOf],
   c3_concentration_sums.1 _ none (by decide) (by norm_num [totalValueOf])⟩

/-! ### C6 — weighted rate is a convex combination -/

/-- The first component of the weighted-rate/commission fold. -/
theorem wr_fold (T : Rat) :
    ∀ (l : List SelectedAsset) (acc : Rat × Rat),
      (l.foldl (fun acc sa =>
        (acc.1 + extractNumericRate sa.asset.rate * (sa.value / T),
         acc.2 + commissionOf sa)) acc).1
        = acc.1 + (l.map (fun sa =>
            extractNumericRate sa.asset.rate * (sa.value / T))).sum := by
  intro l
  induction l with
  | nil => intro acc; simp
  | cons sa rest ih =>
    intro acc
    rw [List.foldl_cons, ih]
    simp only [List.map_cons, List.sum_cons]
    ring

theorem sum_map_rate (c T : Rat) :
    ∀ l : List SelectedAsset,
      (l.map (fun sa => c * (sa.value / T))).sum
        = c * ((l.map SelectedAsset.value).sum / T) := by
  intro l
  induction l with
  | nil => simp
  | cons sa rest ih =>
    simp only [List.map_cons, List.sum_cons, ih]
    ring

/-- **C6** (confirmed): when every holding shares one rate text (and
indexer kind), the weighted rate equals the normalized rate of that shared
text exactly, for any distribution of positive total value. -/
theorem c6_weighted_rate_convex_combination :
    ∀ (sas : List SelectedAsset) (ep : Option (List EconomicParam))
      (r : Option String) (ix : String),
      (∀ sa ∈ sas, sa.asset.rate = r ∧ sa.asset.indexer = ix) →
      0 < totalValueOf sas →
      (calculatePortfolioMetrics sas ep).weightedRate
        = extractNumericRate r := by
  intro sas ep r ix hshare htot
  have hne : ¬ sas = [] := by
    intro he
    rw [he] at htot
    simp [totalValueOf] at htot
  have hemp : sas.isEmpty = false := by
    cases sas with
    | nil => exact absurd rfl hne
    | cons a l => rfl
  simp only [calculatePortfolioMetrics, hemp, Bool.false_eq_true, if_false]
  rw [if_pos htot, weightedRateAndCommission, wr_fold]
  have hmap : sas.map (fun sa =>
      extractNumericRate sa.asset.rate * (sa.value / totalValueOf sas))
      = sas.map (fun sa =>
        extractNumericRate r * (sa.value / totalValueOf sas)) :=
    List.map_congr_left (fun sa hsa => by rw [(hshare sa hsa).1])
  rw [hmap, sum_map_rate, ← totalValueOf_eq_sum, div_self (ne_of_gt htot)]
  norm_num

/-- Witness for `c6_weighted_rate_convex_combination`: a 30/70 split of two
holdings sharing the rate text `"12%"`. -/
theorem c6_weighted_rate_convex_combination_witness :
    0 < totalValueOf
      [⟨⟨"P1", "I1", none, "PREFIXADO", none, none, some "12%", none, none⟩,
        1, 30⟩,
       ⟨⟨"P2", "I2", none, "PREFIXADO", none, none, some "12%", none, none⟩,
        1, 70⟩] ∧
    (calculatePortfolioMetrics
      [⟨⟨"P1", "I1", none, "PREFIXADO", none, none, some "12%", none, none⟩,
        1, 30⟩,
       ⟨⟨"P2", "I2", none, "PREFIXADO", none, none, some "12%", none, none⟩,
        1, 70⟩] none).weightedRate = extractNumericRate (some "12%") :=
  ⟨by norm_num [totalValueOf],
   c6_weighted_rate_convex_combination _ none (some "12%") "PREFIXADO"
     (by decide) (by norm_num [totalValueOf])⟩

/-! ### C9 — totals/details consistency of the projector -/

/-- Effect of one contribution on the totals array at each index. -/
theorem addAt_totals_getD {st : CouponState} (h12 : st.totals.length = 12)
    (m : Nat) (hm : m < 12) (v : Rat) (nm : String) (fr : Option String)
    (i : Nat) :
    (addAt m v nm fr st).totals.getD i 0
      = if i = m then st.totals.getD m 0 + v else st.totals.getD i 0 := by
  simp only [addAt]
  rw [List.getD_eq_getElem?_getD, List.getElem?_set]
  by_cases him : i = m
  · subst him
    rw [if_pos rfl, if_pos (by rw [h12]; exact hm), if_pos rfl]
    rfl
  · rw [if_neg (fun hh => him hh.symm), if_neg him,
      List.getD_eq_getElem?_getD]

/-- Effect of one contribution on the details array at each index. -/
theorem addAt_details_getD {st : CouponState} (h12 : st.details.length = 12)
    (m : Nat) (hm : m < 12) (v : Rat) (nm : String) (fr : Option String)
    (i : Nat) :
    (addAt m v nm fr st).details.getD i ⟨0, []⟩
      = if i = m then
          ⟨(st.details.getD m ⟨0, []⟩).total + v,
           (st.details.getD m ⟨0, []⟩).details ++ [⟨nm, v, fr⟩]⟩
        else st.details.getD i ⟨0, []⟩ := by
  simp only [addAt]
  rw [List.getD_eq_getElem?_getD, List.getElem?_set]
  by_cases him : i = m
  · subst him
    rw [if_pos rfl, if_pos (by rw [h12]; exact hm), if_pos rfl]
    rfl
  · rw [if_neg (fun hh => him hh.symm), if_neg him,
      List.getD_eq_getElem?_getD]

/-- A contribution at an out-of-range month index is a no-op (both
`List.set` calls are out of bounds). -/
theorem addAt_oob {st : CouponState} (ht : st.totals.length = 12)
    (hd : st.details.length = 12) (m : Nat) (hm : ¬ m < 12) (v : Rat)
    (nm : String) (fr : Option String) :
    addAt m v nm fr st = st := by
  simp only [addAt]
  rw [List.set_eq_of_length_le (by rw [ht]; omega),
    List.set_eq_of_length_le (by rw [hd]; omega)]

/-- One contribution keeps totals and details consistent. -/
theorem couponInvariant_addAt (m : Nat) (v : Rat) (nm : String)
    (fr : Option String) {st : CouponState} (h : couponInvariant st) :
    couponInvariant (addAt m v nm fr st) := by
  obtain ⟨ht, hd, hI⟩ := h
  by_cases hm : m < 12
  · refine ⟨?_, ?_, ?_⟩
    · simp only [addAt, List.length_set]
      exact ht
    · simp only [addAt, List.length_set]
      exact hd
    · intro i hi
      rw [addAt_totals_getD ht m hm, addAt_details_getD hd m hm]
      by_cases him : i = m
      · rw [if_pos him, if_pos him]
        obtain ⟨e1, e2⟩ := hI m hm
        constructor
        · show st.totals.getD m 0 + v
            = (st.details.getD m ⟨0, []⟩).total + v
          rw [e1]
        · show (st.details.getD m ⟨0, []⟩).total + v
            = (((st.details.getD m ⟨0, []⟩).details
                ++ [(⟨nm, v, fr⟩ : CouponDetail)]).map CouponDetail.value).sum
          rw [List.map_append, List.sum_append, e2]
          simp
      · rw [if_neg him, if_neg him]
        exact hI i hi
  · rw [addAt_oob ht hd m hm]
    exact ⟨ht, hd, hI⟩

/-- The initial all-zero state is consistent. -/
theorem couponInvariant_empty : couponInvariant emptyCouponState := by
  refine ⟨rfl, rfl, ?_⟩
  intro i hi
  simp only [emptyCouponState]
  constructor
  · rw [getD_replicate_zero, List.getD_eq_getElem?_getD,
      List.getElem?_replicate, if_pos hi]
    rfl
  · rw [List.getD_eq_getElem?_getD, List.getElem?_replicate, if_pos hi]
    rfl

theorem couponInvariant_addMonthChecked (nm : String) (fr : Option String)
    (v : Rat) {st : CouponState} (h : couponInvariant st) (mo : Int) :
    couponInvariant (addMonthChecked nm fr v st mo) := by
  rw [addMonthChecked]
  split
  · exact couponInvariant_addAt _ v nm fr h
  · exact h

theorem couponInvariant_foldl_addAt (nm : String) (fr : Option String)
    (v : Rat) :
    ∀ (ms : List Nat) {st : CouponState}, couponInvariant st →
      couponInvariant (ms.foldl (fun s i => addAt i v nm fr s) st) := by
  intro ms
  induction ms with
  | nil => intro st h; exact h
  | cons m rest ih =>
    intro st h
    rw [List.foldl_cons]
    exact ih (couponInvariant_addAt m v nm fr h)

theorem couponInvariant_foldl_checked (nm : String) (fr : Option String)
    (v : Rat) :
    ∀ (ms : List Int) {st : CouponState}, couponInvariant st →
      couponInvariant (ms.foldl (addMonthChecked nm fr v) st) := by
  intro ms
  induction ms with
  | nil => intro st h; exact h
  | cons m rest ih =>
    intro st h
    rw [List.foldl_cons]
    exact ih (couponInvariant_addMonthChecked nm fr v h m)

theorem couponInvariant_processAsset (cdi : Rat) (sa : SelectedAsset)
    {st : CouponState} (h : couponInvariant st) :
    couponInvariant (processAsset cdi st sa) := by
  rw [processAsset]
  rcases hcm : sa.asset.couponMonths with _ | cm
  · exact h
  rcases hfr : sa.asset.frequency with _ | fr
  · exact h
  simp only []
  split_ifs
  · exact h
  · exact couponInvariant_foldl_addAt _ _ _ _ h
  · exact couponInvariant_foldl_checked _ _ _ _ h
  · exact couponInvariant_foldl_checked _ _ _ _ h
  · exact couponInvariant_foldl_checked _ _ _ _ h
  · exact h

/-- The whole projector maintains the consistency invariant. -/
theorem couponInvariant_calc (sas : List SelectedAsset) (cdi : Rat) :
    couponInvariant (calculateMonthlyCoupons sas cdi) := by
  rw [calculateMonthlyCoupons]
  split
  · exact couponInvariant_empty
  · have hfold : ∀ (l : List SelectedAsset) {st : CouponState},
        couponInvariant st →
        couponInvariant (l.foldl (processAsset cdi) st) := by
      intro l
      induction l with
      | nil => intro st h; exact h
      | cons sa rest ih =>
        intro st h
        rw [List.foldl_cons]
        exact ih (couponInvariant_processAsset cdi sa h)
    exact hfold sas couponInvariant_empty

/-- **C9** (confirmed): for every holdings list and month `i < 12`,
`totals[i]` equals `details[i].total`, which equals the sum of the
contribution values recorded in `details[i].details`. -/
theorem c9_totals_match_details :
    ∀ (sas : List SelectedAsset) (cdi : Rat) (i : Nat), i < 12 →
      ((calculateMonthlyCoupons sas cdi).totals.getD i 0
        = ((calculateMonthlyCoupons sas cdi).details.getD i ⟨0, []⟩).total ∧
       ((calculateMonthlyCoupons sas cdi).details.getD i ⟨0, []⟩).total
        = (((calculateMonthlyCoupons sas cdi).details.getD i
            ⟨0, []⟩).details.map CouponDetail.value).sum) := by
  intro sas cdi i hi
  exact (couponInvariant_calc sas cdi).2.2 i hi

/-! ### C10 — duplicated payment months multiply the coupon -/

theorem addMonthChecked_totals_length (nm : String) (fr : Option String)
    (v : Rat) (st : CouponState) (mo : Int) :
    (addMonthChecked nm fr v st mo).totals.length = st.totals.length := by
  rw [addMonthChecked]
  split
  · simp [addAt, List.length_set]
  · rfl

theorem addMonthChecked_details_length (nm : String) (fr : Option String)
    (v : Rat) (st : CouponState) (mo : Int) :
    (addMonthChecked nm fr v st mo).details.length = st.details.length := by
  rw [addMonthChecked]
  split
  · simp [addAt, List.length_set]
  · rfl

theorem addMonthChecked_totals_getD (nm : String) (fr : Option String)
    (v : Rat) {st : CouponState} (h12 : st.totals.length = 12) (mo : Int)
    (i : Nat) (hi : i < 12) :
    (addMonthChecked nm fr v st mo).totals.getD i 0
      = st.totals.getD i 0 + (if mo = (i : Int) then v else 0) := by
  rw [addMonthChecked]
  split
  · rename_i hmo
    rw [addAt_totals_getD h12 mo.toNat (by omega) v nm fr i]
    by_cases hmoi : mo = (i : Int)
    · have hit : i = mo.toNat := by omega
      rw [if_pos hit, if_pos hmoi, hit]
    · have hit : ¬ i = mo.toNat := by omega
      rw [if_neg hit, if_neg hmoi, add_zero]
  · rename_i hmo
    have hne : ¬ mo = (i : Int) := by omega
    rw [if_neg hne, add_zero]

theorem addMonthChecked_details_len (nm : String) (fr : Option String)
    (v : Rat) {st : CouponState} (h12 : st.details.length = 12) (mo : Int)
    (i : Nat) (hi : i < 12) :
    ((addMonthChecked nm fr v st mo).details.getD i ⟨0, []⟩).details.length
      = (st.details.getD i ⟨0, []⟩).details.length
        + (if mo = (i : Int) then 1 else 0) := by
  rw [addMonthChecked]
  split
  · rename_i hmo
    rw [addAt_details_getD h12 mo.toNat (by omega) v nm fr i]
    by_cases hmoi : mo = (i : Int)
    · have hit : i = mo.toNat := by omega
      rw [if_pos hit, if_pos hmoi, hit]
      simp
    · have hit : ¬ i = mo.toNat := by omega
      rw [if_neg hit, if_neg hmoi, add_zero]
  · rename_i hmo
    have hne : ¬ mo = (i : Int) := by omega
    rw [if_neg hne, add_zero]

/-- Folding the listed months adds the per-period value once per
occurrence of each month: the total gained at month `i` is
`count i * v`. -/
theorem foldl_checked_totals_getD (nm : String) (fr : Option String)
    (v : Rat) :
    ∀ (ms : List Int) (st : CouponState), st.totals.length = 12 →
      ∀ i : Nat, i < 12 →
      (ms.foldl (addMonthChecked nm fr v) st).totals.getD i 0
        = st.totals.getD i 0 + (ms.count (i : Int) : Rat) * v := by
  intro ms
  induction ms with
  | nil => intro st h i hi; simp
  | cons mo rest ih =>
    intro st h i hi
    rw [List.foldl_cons,
      ih _ (by rw [addMonthChecked_totals_length]; exact h) i hi,
      addMonthChecked_totals_getD nm fr v h mo i hi, List.count_cons]
    by_cases hmoi : mo = (i : Int)
    · simp only [hmoi, beq_self_eq_true, if_pos rfl, if_true]
      push_cast
      ring
    · have hb : ¬ (mo == (i : Int)) = true := by
        simp [beq_iff_eq]
        exact hmoi
      rw [if_neg hmoi, if_neg hb, add_zero, add_zero]

/-- Likewise one detail entry is pushed per occurrence. -/
theorem foldl_checked_details_len (nm : String) (fr : Option String)
    (v : Rat) :
    ∀ (ms : List Int) (st : CouponState), st.details.length = 12 →
      ∀ i : Nat, i < 12 →
      ((ms.foldl (addMonthChecked nm fr v) st).details.getD i
          ⟨0, []⟩).details.length
        = (st.details.getD i ⟨0, []⟩).details.length + ms.count (i : Int) := by
  intro ms
  induction ms with
  | nil => intro st h i hi; simp
  | cons mo rest ih =>
    intro st h i hi
    rw [List.foldl_cons,
      ih _ (by rw [addMonthChecked_details_length]; exact h) i hi,
      addMonthChecked_details_len nm fr v h mo i hi, List.count_cons]
    by_cases hmoi : mo = (i : Int)
    · simp only [hmoi, beq_self_eq_true, if_pos rfl, if_true]
      omega
    · have hb : ¬ (mo == (i : Int)) = true := by
        simp [beq_iff_eq]
        exact hmoi
      rw [if_neg hmoi, if_neg hb, add_zero, add_zero]

/-- **C10** (confirmed): the parsed month list keeps duplicates
(`"3, 3"` and `"03 E 03"` both parse to `[2, 2]`), and for a quarterly /
semiannual / annual holding the coupon is added to a month's total — and a
detail entry pushed — once per occurrence of that month, so a duplicated
month receives a multiple of the per-period coupon. -/
theorem c10_duplicate_months_multiply :
    parseCouponMonths "3, 3" = [2, 2] ∧
    parseCouponMonths "03 E 03" = [2, 2] ∧
    (∀ (sa : SelectedAsset) (cdi : Rat) (cm fr : String),
      sa.asset.couponMonths = some cm →
      sa.asset.frequency = some fr →
      ¬ cm = "" → ¬ fr = "" →
      isMonthlyF fr = false →
      (isQuarterlyF fr = true ∨ isSemiannualF fr = true ∨
       isAnnualF fr = true) →
      ∀ i : Nat, i < 12 →
      (calculateMonthlyCoupons [sa] cdi).totals.getD i 0
        = ((parseCouponMonths cm).count (i : Int) : Rat)
          * (annualCouponOf cdi sa.asset sa.quantity
             / (if isQuarterlyF fr then 4
                else if isSemiannualF fr then 2 else 1)) ∧
      ((calculateMonthlyCoupons [sa] cdi).details.getD i
          ⟨0, []⟩).details.length
        = (parseCouponMonths cm).count (i : Int)) := by
  refine ⟨by decide, by decide, ?_⟩
  intro sa cdi cm fr hcm hfr hcm0 hfr0 hM hQSA i hi
  rw [calculateMonthlyCoupons, if_neg (by simp), List.foldl_cons,
    List.foldl_nil, processAsset]
  simp only [hcm, hfr]
  rw [if_neg (by rintro (h | h); exact hcm0 h; exact hfr0 h)]
  simp only [hM, Bool.false_eq_true, if_false]
  by_cases hq : isQuarterlyF fr = true
  · simp only [if_pos hq]
    constructor
    · rw [foldl_checked_totals_getD sa.asset.name (some fr)
        (annualCouponOf cdi sa.asset sa.quantity / 4) (parseCouponMonths cm)
        emptyCouponState rfl i hi]
      simp only [emptyCouponState]
      rw [getD_replicate_zero, zero_add]
    · rw [foldl_checked_details_len sa.asset.name (some fr)
        (annualCouponOf cdi sa.asset sa.quantity / 4) (parseCouponMonths cm)
        emptyCouponState rfl i hi]
      simp only [emptyCouponState]
      rw [List.getD_eq_getElem?_getD, List.getElem?_replicate, if_pos hi]
      simp
  · simp only [if_neg hq]
    by_cases hs : isSemiannualF fr = true
    · simp only [if_pos hs]
      constructor
      · rw [foldl_checked_totals_getD sa.asset.name (some fr)
          (annualCouponOf cdi sa.asset sa.quantity / 2) (parseCouponMonths cm)
          emptyCouponState rfl i hi]
        simp only [emptyCouponState]
        rw [getD_replicate_zero, zero_add]
      · rw [foldl_checked_details_len sa.asset.name (some fr)
          (annualCouponOf cdi sa.asset sa.quantity / 2) (parseCouponMonths cm)
          emptyCouponState rfl i hi]
        simp only [emptyCouponState]
        rw [List.getD_eq_getElem?_getD, List.getElem?_replicate, if_pos hi]
        simp
    · simp only [if_neg hs]
      have ha : isAnnualF fr = true := by
        rcases hQSA with h | h | h
        · exact absurd h hq
        · exact absurd h hs
        · exact h
      simp only [if_pos ha]
      constructor
      · rw [foldl_checked_totals_getD sa.asset.name (some fr)
          (annualCouponOf cdi sa.asset sa.quantity) (parseCouponMonths cm)
          emptyCouponState rfl i hi]
        simp only [emptyCouponState]
        rw [getD_replicate_zero, zero_add, div_one]
      · rw [foldl_checked_details_len sa.asset.name (some fr)
          (annualCouponOf cdi sa.asset sa.quantity) (parseCouponMonths cm)
          emptyCouponState rfl i hi]
        simp only [emptyCouponState]
        rw [List.getD_eq_getElem?_getD, List.getElem?_replicate, if_pos hi]
        simp


/-- Witness for `c9_totals_match_details` at the empty holdings list and
month 0. -/
theorem c9_totals_match_details_witness :
    (0 : Nat) < 12 ∧
    ((calculateMonthlyCoupons [] (1465 / 100)).totals.getD 0 0
      = ((calculateMonthlyCoupons [] (1465 / 100)).details.getD 0
          ⟨0, []⟩).total ∧
     ((calculateMonthlyCoupons [] (1465 / 100)).details.getD 0
          ⟨0, []⟩).total
      = (((calculateMonthlyCoupons [] (1465 / 100)).details.getD 0
          ⟨0, []⟩).details.map CouponDetail.value).sum) :=
  ⟨by norm_num, c9_totals_match_details [] (1465 / 100) 0 (by norm_num)⟩

/-- Witness for `c10_duplicate_months_multiply`: the quarterly holding
with payment months `"3, 3"` at month index 2. -/
theorem c10_duplicate_months_multiply_witness :
    (calculateMonthlyCoupons
      [⟨⟨"D1", "I", none, "PREFIXADO", some "quarterly", some "3, 3",
         some "8%", some "1000", none⟩, 1, 1000⟩] (1465 / 100)).totals.getD
        2 0
      = ((parseCouponMonths "3, 3").count ((2 : Nat) : Int) : Rat)
        * (annualCouponOf (1465 / 100)
            ⟨"D1", "I", none, "PREFIXADO", some "quarterly", some "3, 3",
             some "8%", some "1000", none⟩ 1
           / (if isQuarterlyF "quarterly" then 4
              else if isSemiannualF "quarterly" then 2 else 1)) ∧
    ((calculateMonthlyCoupons
      [⟨⟨"D1", "I", none, "PREFIXADO", some "quarterly", some "3, 3",
         some "8%", some "1000", none⟩, 1, 1000⟩] (1465 / 100)).details.getD
        2 ⟨0, []⟩).details.length
      = (parseCouponMonths "3, 3").count ((2 : Nat) : Int) :=
  c10_duplicate_months_multiply.2.2
    ⟨⟨"D1", "I", none, "PREFIXADO", some "quarterly", some "3, 3",
      some "8%", some "1000", none⟩, 1, 1000⟩ (1465 / 100) "3, 3" "quarterly"
    rfl rfl (by decide) (by decide) (by decide) (Or.inl (by decide)) 2
    (by norm_num)
